import Mathlib

/-!
Verification development for the piano-practice reconciliation pipeline
(`src/beta.py`).  The Python source is shallowly embedded: documents are
strings, lines are lists of characters, the member dictionary is an
insertion-ordered association list (modelling a Python `dict`), and the
`print`-based warnings are modelled as a returned list of `Diag` values.
Regular-expression matches are embedded as deterministic recursive matchers
that follow the backtracking semantics of the concrete patterns used in the
source (analysed pattern by pattern in the comments below).  Character
classes are restricted to the ASCII ranges actually exercised by the data
(`\d` is embedded as ASCII digits, `\s` and `str.strip` as ASCII whitespace);
the claims under verification do not depend on the wider Unicode classes.
-/

namespace PianoPractice

/-- ASCII decimal digit, embedding the `\d` class of the source regexes
(restricted from Unicode decimal digits, which the inputs never use). -/
def isAsciiDigit (c : Char) : Bool :=
  '0' ≤ c && c ≤ '9'

/-- Whitespace as recognised by Python `\s` and `str.strip` (ASCII part). -/
def isPySpace (c : Char) : Bool :=
  c = ' ' || c = '\t' || c = '\n' || c = '\r' || c = '\x0b' || c = '\x0c'

/-- Embedding of Python `str.strip()` on a list of characters. -/
def pyStripL (cs : List Char) : List Char :=
  ((cs.dropWhile isPySpace).reverse.dropWhile isPySpace).reverse

/-- Embedding of Python `str.strip()` on strings. -/
def pyStrip (s : String) : String :=
  String.mk (pyStripL s.data)

/-- Embedding of Python `str.split(sep)` for a one-character separator:
`"".split(c) = [""]`, and empty fields are kept. -/
def splitOnChar (sep : Char) : List Char → List (List Char)
  | [] => [[]]
  | c :: rest =>
    if c = sep then [] :: splitOnChar sep rest
    else
      match splitOnChar sep rest with
      | [] => [[c]]
      | g :: gs => (c :: g) :: gs

/-- Numeric value of a list of ASCII digits (most significant first). -/
def natOfDigits (cs : List Char) : Nat :=
  cs.foldl (fun acc c => acc * 10 + (c.toNat - '0'.toNat)) 0

/-- Embedding of Python `int(s)` on an already-stripped string: an optional
sign followed by one or more digits (ASCII-restricted; Python additionally
accepts Unicode digits and underscore separators, unused by the inputs). -/
def pyParseIntL (cs : List Char) : Option Int :=
  match cs with
  | [] => none
  | '-' :: rest =>
    if rest ≠ [] ∧ rest.all isAsciiDigit then some (-(natOfDigits rest : Int)) else none
  | '+' :: rest =>
    if rest ≠ [] ∧ rest.all isAsciiDigit then some ((natOfDigits rest : Int)) else none
  | _ =>
    if cs.all isAsciiDigit then some ((natOfDigits cs : Int)) else none

/-- A practice record: `(minutes, content, dateLabel)`, exactly the tuple
appended in `parse_practice_records` (src/beta.py line 73). -/
abbrev PracticeRecord := Nat × String × String

/-- `Member` dataclass (src/beta.py lines 7–13). -/
structure Member where
  id : Int
  name : String
  city : String
  status : String
  practice_records : List PracticeRecord
deriving DecidableEq

/-- Diagnostics printed by the source; each constructor stands for one
`print` call site:
`rosterParseFailed line` for line 36 of src/beta.py,
`memberNotFound id` for line 76, and `lineParseFailed line` for line 78. -/
inductive Diag where
  | rosterParseFailed (line : String)
  | memberNotFound (memberId : Nat)
  | lineParseFailed (line : String)
deriving DecidableEq

/-- The member mapping: an insertion-ordered association list modelling the
Python `dict` built by `parse_member_list`. -/
abbrev Dict := List (Int × Member)

/-- Membership test on the mapping, embedding `member_id in members`. -/
def dictContains (d : Dict) (k : Int) : Bool :=
  d.any (fun p => p.1 == k)

/-- Key → value insertion with Python `dict` semantics: assigning to an
existing key replaces its value in place, otherwise the pair is appended. -/
def dictInsert (d : Dict) (k : Int) (v : Member) : Dict :=
  if dictContains d k then d.map (fun p => if p.1 == k then (k, v) else p)
  else d ++ [(k, v)]

/-- Lookup, embedding `members[member_id]`. -/
def dictLookup (d : Dict) (k : Int) : Option Member :=
  (d.find? (fun p => p.1 == k)).map (·.2)

/-- The key sequence of the mapping, in insertion order. -/
def dictKeys (d : Dict) : List Int :=
  d.map Prod.fst

/-- Embedding of `members[member_id].practice_records.append(r)`. -/
def appendRecord (d : Dict) (k : Int) (r : PracticeRecord) : Dict :=
  d.map (fun p =>
    if p.1 == k then (p.1, { p.2 with practice_records := p.2.practice_records ++ [r] })
    else p)

/-- One iteration of the roster loop in `parse_member_list`
(src/beta.py lines 20–37): blank lines are skipped; the line is split on
tabs with every field stripped; only lines with at least three fields are
considered, and of those, the ones whose first field fails integer parsing
are skipped with a diagnostic; otherwise a `Member` keyed by the parsed id
is stored (status defaults to the empty string when there is no 4th field).
A line with fewer than three fields is skipped with no diagnostic. -/
def rosterStep (st : Dict × List Diag) (line : List Char) : Dict × List Diag :=
  if pyStripL line = [] then st
  else
    match (splitOnChar '\t' line).map pyStripL with
    | p0 :: p1 :: p2 :: rest =>
      match pyParseIntL p0 with
      | some mid =>
        (dictInsert st.1 mid
          { id := mid, name := String.mk p1, city := String.mk p2,
            status := String.mk (rest.headD []), practice_records := [] }, st.2)
      | none => (st.1, st.2 ++ [Diag.rosterParseFailed (String.mk line)])
    | _ => st

/-- `parse_member_list` (src/beta.py lines 15–38): strip the document, split
it into lines, drop the two header lines, and fold `rosterStep` over the
rest.  The returned diagnostics model the `print` warnings. -/
def parse_member_list (content : String) : Dict × List Diag :=
  ((splitOnChar '\n' (pyStripL content.data)).drop 2).foldl rosterStep ([], [])

/-- Matcher for the date-header pattern
`^(\d{4})年(\d{1,2})月(\d{1,2})日\s*(?:星期[一二三四五六日])?` used with
`re.match` (src/beta.py line 51).  Since `re.match` only anchors at the
start, everything after the day marker is irrelevant (the optional weekday
group always succeeds), so the match reduces to: a maximal digit run of
length exactly 4 followed by 年, then maximal digit runs of length 1 or 2
followed by 月 and 日 respectively (a longer run makes every backtracking
choice of `\d{1,2}` end on a digit, never on the marker, exactly as the
maximal-run test does).  Returns the raw digit strings of groups 2 and 3. -/
def matchDateHeader (cs : List Char) : Option (List Char × List Char) :=
  let (y, r1) := cs.span isAsciiDigit
  if y.length = 4 then
    match r1 with
    | '年' :: r2 =>
      let (m, r3) := r2.span isAsciiDigit
      if m.length = 1 ∨ m.length = 2 then
        match r3 with
        | '月' :: r4 =>
          let (d, r5) := r4.span isAsciiDigit
          if d.length = 1 ∨ d.length = 2 then
            match r5 with
            | '日' :: _ => some (m, d)
            | _ => none
          else none
        | _ => none
      else none
    | _ => none
  else none

/-- Full-width or ASCII period, the class `[。.]` of the record regex. -/
def isDotSep (c : Char) : Bool :=
  c = '。' || c = '.'

/-- Opening parenthesis class `[（(]`. -/
def isOpenParen (c : Char) : Bool :=
  c = '（' || c = '('

/-- Closing parenthesis class `[)）]`. -/
def isCloseParen (c : Char) : Bool :=
  c = ')' || c = '）'

/-- `\s*`: drop maximal whitespace. -/
def skipWs (cs : List Char) : List Char :=
  cs.dropWhile isPySpace

/-- The record-regex tail `\s*[（(]([^)）]+)[)）]\s*[。.]\s*(\d+)\s*[。.]\s*(.*)`
starting right after the candidate name.  Every quantifier here is
deterministic: each greedy `\s*`, the city class `[^)）]+` and the digit runs
are followed by characters outside their own class, so maximal munch is
exact.  Returns `(minutes, content-group characters)`; group 5 `(.*)` is the
remainder of the line after the final separator and `\s*`. -/
def tailAfterName (cs : List Char) : Option (Nat × List Char) :=
  match skipWs cs with
  | c :: r =>
    if isOpenParen c then
      let (city, r2) := r.span (fun ch => !isCloseParen ch)
      if city.isEmpty then none
      else
        match r2 with
        | c2 :: r3 =>
          if isCloseParen c2 then
            match skipWs r3 with
            | c3 :: r4 =>
              if isDotSep c3 then
                let (mins, r5) := (skipWs r4).span isAsciiDigit
                if mins.isEmpty then none
                else
                  match skipWs r5 with
                  | c4 :: r6 => if isDotSep c4 then some (natOfDigits mins, skipWs r6) else none
                  | [] => none
              else none
            | [] => none
          else none
        | [] => none
    else none
  | [] => none

/-- The lazy name group `([^(]+?)` followed by `tailAfterName`: consume one
character at a time (each must differ from the ASCII `(` excluded by the
class; the full-width `（` is allowed inside the name) and return the first
position at which the tail matches — exactly the shortest-first expansion
order of a lazy quantifier. -/
def nameKLoop : List Char → Option (Nat × List Char)
  | [] => none
  | c :: r =>
    if c = '(' then none
    else
      match tailAfterName r with
      | some res => some res
      | none => nameKLoop r

/-- The greedy `\s*` preceding the lazy name group: try the longest
whitespace prefix first and give characters back one at a time on failure
(whitespace is allowed inside `[^(]`, so shorter prefixes genuinely retry
with the surrendered whitespace as part of the name). -/
def wsBacktrack : Nat → List Char → Option (Nat × List Char)
  | 0, cs => nameKLoop cs
  | w + 1, cs =>
    match nameKLoop (cs.drop (w + 1)) with
    | some res => some res
    | none => wsBacktrack w cs

/-- Matcher for the record-line regex
`\d+\.\s*[。.]\s*(\d+)\s*[。.]\s*([^(]+?)\s*[（(]([^)）]+)[)）]\s*[。.]\s*(\d+)\s*[。.]\s*(.*)`
used with `re.match` (src/beta.py line 66).  The leading ordinal digits, the
literal ASCII period, the separator classes and the member-id digit run are
all deterministic (each maximal munch is followed by a character outside the
class); the only genuine backtracking — the greedy `\s*` against the lazy
name group — is performed by `wsBacktrack`.  Returns the groups the source
actually uses: `(member id, minutes, content-group characters)`. -/
def matchRecord (cs : List Char) : Option (Nat × Nat × List Char) :=
  let (ordinal, r1) := cs.span isAsciiDigit
  if ordinal.isEmpty then none
  else
    match r1 with
    | '.' :: r2 =>
      match skipWs r2 with
      | c :: r3 =>
        if isDotSep c then
          let (idDigits, r4) := (skipWs r3).span isAsciiDigit
          if idDigits.isEmpty then none
          else
            match skipWs r4 with
            | c2 :: r5 =>
              if isDotSep c2 then
                match wsBacktrack (r5.takeWhile isPySpace).length r5 with
                | some (mins, content) => some (natOfDigits idDigits, mins, content)
                | none => none
              else none
            | [] => none
        else none
      | [] => none
    | _ => none

/-- The state threaded through the log scan: the `current_date` variable of
`parse_practice_records`, the member mapping being mutated, and the
diagnostics printed so far. -/
structure ScanState where
  currentDate : String
  members : Dict
  diags : List Diag
deriving DecidableEq

/-- One iteration of the scan loop in `parse_practice_records`
(src/beta.py lines 44–78): strip the line; skip it when blank; a date-header
match updates `current_date` to the year-dropped `M月D日` label; otherwise
lines starting with `#` and lines containing 例 are skipped; otherwise a
record-grammar match appends `(minutes, stripped content, current_date)` to
the member when the id is known and emits a not-found diagnostic when it is
not; a line matching nothing emits a could-not-parse diagnostic. -/
def scanStep (s : ScanState) (rawLine : List Char) : ScanState :=
  let line := pyStripL rawLine
  if line.isEmpty then s
  else
    match matchDateHeader line with
    | some (m, d) => { s with currentDate := String.mk m ++ "月" ++ String.mk d ++ "日" }
    | none =>
      if line.head? = some '#' then s
      else if line.contains '例' then s
      else
        match matchRecord line with
        | some (mid, mins, contentChars) =>
          if dictContains s.members (mid : Int) then
            { s with members :=
                appendRecord s.members (mid : Int) (mins, String.mk (pyStripL contentChars), s.currentDate) }
          else { s with diags := s.diags ++ [Diag.memberNotFound mid] }
        | none => { s with diags := s.diags ++ [Diag.lineParseFailed (String.mk line)] }

/-- `parse_practice_records` (src/beta.py lines 40–78): strip the document,
split into lines, and fold `scanStep` starting from the empty date label. -/
def parse_practice_records (content : String) (members : Dict) : ScanState :=
  (splitOnChar '\n' (pyStripL content.data)).foldl scanStep
    { currentDate := "", members := members, diags := [] }

/-- One statistics row, the tuple
`(member_id, name, total_minutes, total_hours, days, rank, daily_records)`
built in `calculate_statistics` (src/beta.py line 92). -/
structure StatRow where
  id : Int
  name : String
  totalMinutes : Nat
  totalHours : ℚ
  days : Nat
  rank : Nat
  dailyRecords : List PracticeRecord
deriving DecidableEq

/-- Round-half-to-even on rationals, the rounding rule of Python `round`
(the source applies it to a float; the claims under verification do not
depend on binary-float representation effects). -/
def roundHalfEven (q : ℚ) : ℤ :=
  if q - Int.floor q < 1 / 2 then Int.floor q
  else if q - Int.floor q > 1 / 2 then Int.floor q + 1
  else if Int.floor q % 2 = 0 then Int.floor q else Int.floor q + 1

/-- Embedding of Python `round(x, 2)`. -/
def pyRound2 (q : ℚ) : ℚ :=
  (roundHalfEven (q * 100) : ℚ) / 100

/-- `sum(record[0] for record in practice_records)`. -/
def sumMinutes (rs : List PracticeRecord) : Nat :=
  (rs.map (·.1)).sum

/-- The per-member row built in the first loop of `calculate_statistics`
(src/beta.py lines 86–92), with the rank placeholder 0. -/
def mkStatRow (mid : Int) (m : Member) : StatRow :=
  { id := mid, name := m.name,
    totalMinutes := sumMinutes m.practice_records,
    totalHours := pyRound2 ((sumMinutes m.practice_records : ℚ) / 60),
    days := m.practice_records.length,
    rank := 0,
    dailyRecords := m.practice_records }

/-- `stats.sort(key=lambda x: x[2], reverse=True)` (src/beta.py line 95):
a stable sort, descending on `totalMinutes`; rows with equal totals keep
their relative order.  Embedded as Mathlib insertion sort, which is stable
under this ordering. -/
def sortStatsDesc (l : List StatRow) : List StatRow :=
  List.insertionSort (fun a b => b.totalMinutes ≤ a.totalMinutes) l

/-- The ranking loop of `calculate_statistics` (src/beta.py lines 98–106):
`i` is the 0-based position, `prev` the previous total (`None` initially)
and `curRank` the rank of the previous row (`current_rank`, initially 1);
a row gets rank `i+1` when its total is strictly below the previous total
(or there is no previous row) and inherits `curRank` otherwise. -/
def assignRanksAux : Nat → Option Nat → Nat → List StatRow → List StatRow
  | _, _, _, [] => []
  | i, prev, curRank, s :: rest =>
    let r := match prev with
      | none => i + 1
      | some p => if s.totalMinutes < p then i + 1 else curRank
    { s with rank := r } :: assignRanksAux (i + 1) (some s.totalMinutes) r rest

/-- Rank assignment starting from position 0, no previous row, rank 1. -/
def assignRanks (l : List StatRow) : List StatRow :=
  assignRanksAux 0 none 1 l

/-- `calculate_statistics` (src/beta.py lines 80–108): keep the members with
empty status, build their rows, sort descending by total minutes, and assign
competition ranks. -/
def calculate_statistics (members : Dict) : List StatRow :=
  assignRanks (sortStatsDesc
    ((members.filter (fun p => p.2.status == "")).map (fun p => mkStatRow p.1 p.2)))

/-- `find_non_compliant_members` (src/beta.py lines 110–119): the ids of the
empty-status members with `total_minutes < 120` and fewer than 2 records,
in mapping order. -/
def find_non_compliant_members (members : Dict) : List Int :=
  (members.filter (fun p =>
    p.2.status == ""
      && decide (sumMinutes p.2.practice_records < 120)
      && decide (p.2.practice_records.length < 2))).map (·.1)

/-- Embedding of Python `sorted` on an integer list: stable ascending sort. -/
def pySorted (l : List Int) : List Int :=
  List.insertionSort (fun a b => a ≤ b) l

/-- `",".join(map(str, ids))`. -/
def joinComma (l : List Int) : String :=
  String.intercalate (",") (l.map (fun i => toString i))

/-- The fixed text of the warning message before the id list
(src/beta.py lines 298–301). -/
def warningHead (weekday : String) : String :=
  "📣统计组预警提醒：\n\n今天" ++ weekday ++
    "啦！\n打卡群周最低线：天数≥2天或总时长≥2小时，二者满足其一即可。\n\n以下在打卡群（请假除外）参与本周打卡统计的伙伴还要差一丢丢，各位小伙伴周末加加油哦[嘿哈]\n\n"

/-- The fixed text of the warning message after the id list
(src/beta.py line 303). -/
def warningTail : String :=
  "\n\n（统计截至周五打卡数据，如有今天已经达标的，忽略即可~)"

/-- `generate_warning_message` (src/beta.py lines 294–304): the composed
message embeds `",".join(map(str, sorted(non_compliant)))`. -/
def generate_warning_message (non_compliant : List Int) (weekday : String) : String :=
  warningHead weekday ++ joinComma (pySorted non_compliant) ++ warningTail

/-- The end-date computation of `process_data` (src/beta.py lines 326–335):
`end_day_int = start_day + 6` with the fixed 31-day month-length
approximation; returns `(end_month, end_day)`.  The source carries the month
and day as decimal strings and converts with `int`/`str`; the embedding
works on the numeric values directly. -/
def computeEndDate (start_month start_day : Nat) : Nat × Nat :=
  let end_day_int := start_day + 6
  let days_in_month := 31
  if end_day_int > days_in_month then (start_month + 1, end_day_int - days_in_month)
  else (start_month, end_day_int)

/-- Matcher for `re.search(r'(\d+)月(\d+)日', date)` (src/beta.py line 387):
try every start position left to right; at a position the match succeeds
exactly when a nonempty maximal digit run is followed by 月 and then a
nonempty maximal digit run followed by 日 (greedy `\d+` is deterministic
here, since giving digits back only puts another digit where the marker must
be).  Returns the numeric `(record_month, record_day)` of the first match. -/
def searchMonthDay : List Char → Option (Nat × Nat)
  | [] => none
  | c :: rest =>
    (if isAsciiDigit c then
      let (mrun, r1) := (c :: rest).span isAsciiDigit
      match r1 with
      | '月' :: r2 =>
        let (drun, r3) := r2.span isAsciiDigit
        if drun.isEmpty then none
        else
          match r3 with
          | '日' :: _ => some (natOfDigits mrun, natOfDigits drun)
          | _ => none
      | _ => none
    else none).orElse (fun _ => searchMonthDay rest)

/-- The grid-placement logic of `process_data` (src/beta.py lines 384–396):
a record lands in the 7-slot grid exactly when its date label contains a
`M月D日` pair whose month equals the start or end month and whose
`day - start_day` offset lies in `[0, 7)`; the offset is the grid column. -/
def gridPlacement (start_month start_day end_month : Nat) (dateLabel : String) : Option Nat :=
  match searchMonthDay dateLabel.data with
  | none => none
  | some (rm, rd) =>
    if rm = start_month ∨ rm = end_month then
      let off : Int := (rd : Int) - (start_day : Int)
      if 0 ≤ off ∧ off < 7 then some off.toNat else none
    else none

/-! Concrete inputs used by the scenario parts of the claims. -/

/-- Tie scenario roster: three required members whose records total
180, 180 and 90 minutes. -/
def demoC1 : Dict :=
  [(1, { id := 1, name := "A", city := "X", status := "", practice_records := [(180, "", "")] }),
   (2, { id := 2, name := "B", city := "Y", status := "", practice_records := [(180, "", "")] }),
   (3, { id := 3, name := "C", city := "Z", status := "", practice_records := [(90, "", "")] })]

/-- The first output row of `calculate_statistics demoC1`. -/
def demoRow0 : StatRow :=
  { id := 1, name := "A", totalMinutes := 180,
    totalHours := pyRound2 ((sumMinutes [(180, "", "")] : ℚ) / 60), days := 1, rank := 1,
    dailyRecords := [(180, "", "")] }

/-- The second output row of `calculate_statistics demoC1`. -/
def demoRow1 : StatRow :=
  { id := 2, name := "B", totalMinutes := 180,
    totalHours := pyRound2 ((sumMinutes [(180, "", "")] : ℚ) / 60), days := 1, rank := 1,
    dailyRecords := [(180, "", "")] }

/-- Member with 100 minutes in a single record (non-compliant). -/
def demoM3 : Member :=
  { id := 3, name := "C", city := "Z", status := "", practice_records := [(100, "", "")] }

/-- Non-compliance boundary roster: 119 minutes over 2 records,
120 minutes over 1 record, 100 minutes over 1 record. -/
def demoC2 : Dict :=
  [(1, { id := 1, name := "A", city := "X", status := "",
         practice_records := [(60, "", ""), (59, "", "")] }),
   (2, { id := 2, name := "B", city := "Y", status := "", practice_records := [(120, "", "")] }),
   (3, demoM3)]

/-- Window scenario roster: one required member with a record inside the
2025-03-17 window (3月20日) and one outside it (3月25日). -/
def demoC3 : Dict :=
  [(1, { id := 1, name := "A", city := "X", status := "",
         practice_records := [(30, "c1", "3月20日"), (40, "c2", "3月25日")] })]

/-! Helper lemmas about the ranking loop. -/

/-- The first ranked row always carries rank 1 (`previous_minutes is None`
on the first iteration). -/
lemma assignRanks_head_rank (l : List StatRow) (s : StatRow)
    (h : (assignRanks l)[0]? = some s) : s.rank = 1 := by
  cases l with
  | nil => simp [assignRanks, assignRanksAux] at h
  | cons hd tl =>
    simp [assignRanks, assignRanksAux] at h
    rw [← h]

/-- Consecutive rows of the ranking loop: starting the loop at position `i`,
the row at relative position `j + 1` gets rank `i + j + 2` when its total is
strictly below the preceding row and inherits the preceding row's rank
otherwise. -/
lemma assignRanksAux_consec (l : List StatRow) :
    ∀ (i : Nat) (prev : Option Nat) (cur : Nat) (j : Nat) (s t : StatRow),
      (assignRanksAux i prev cur l)[j]? = some s →
      (assignRanksAux i prev cur l)[j + 1]? = some t →
      t.rank = if t.totalMinutes < s.totalMinutes then i + j + 2 else s.rank := by
  induction l with
  | nil => intro i prev cur j s t hs _; simp [assignRanksAux] at hs
  | cons hd rest ih =>
    intro i prev cur j s t hs ht
    match j with
    | 0 =>
      simp only [assignRanksAux, List.getElem?_cons_zero, List.getElem?_cons_succ,
        Option.some.injEq] at hs ht
      cases rest with
      | nil => simp [assignRanksAux] at ht
      | cons hd2 rest2 =>
        simp only [assignRanksAux, List.getElem?_cons_zero, Option.some.injEq] at ht
        subst hs; subst ht
        rfl
    | j' + 1 =>
      simp only [assignRanksAux, List.getElem?_cons_succ] at hs ht
      have h := ih (i + 1) (some hd.totalMinutes) _ j' s t hs ht
      have harith : i + 1 + j' + 2 = i + (j' + 1) + 2 := by omega
      rw [harith] at h
      exact h

/-! Helper lemmas about the member mapping. -/

/-- `dictContains` is membership in the key sequence. -/
lemma dictContains_iff (d : Dict) (k : Int) : dictContains d k = true ↔ k ∈ dictKeys d := by
  simp [dictContains, dictKeys, List.any_eq_true, List.mem_map, beq_iff_eq]

/-- In a mapping with no duplicate keys, two entries sharing a key carry the
same member. -/
lemma nodupKeys_val_eq : ∀ (d : Dict), (dictKeys d).Nodup → ∀ (k : Int) (m1 m2 : Member),
    (k, m1) ∈ d → (k, m2) ∈ d → m1 = m2 := by
  intro d
  induction d with
  | nil => intro _ k m1 m2 h1 _; cases h1
  | cons p rest ih =>
    intro h k m1 m2 h1 h2
    simp only [dictKeys, List.map_cons, List.nodup_cons] at h
    rcases List.mem_cons.mp h1 with e1 | t1
    · rcases List.mem_cons.mp h2 with e2 | t2
      · have := e1.trans e2.symm
        simpa using this
      · exfalso
        apply h.1
        rw [show p.1 = k from (congrArg Prod.fst e1).symm]
        exact List.mem_map.mpr ⟨(k, m2), t2, rfl⟩
    · rcases List.mem_cons.mp h2 with e2 | t2
      · exfalso
        apply h.1
        rw [show p.1 = k from (congrArg Prod.fst e2).symm]
        exact List.mem_map.mpr ⟨(k, m1), t1, rfl⟩
      · exact ih h.2 k m1 m2 t1 t2

/-! Theorems for the claims. -/

/-- C1: ranking uses standard competition ranking — after sorting the
required members' StatRows by totalMinutes descending, the row at 0-based
position `i` receives rank `i+1` when its totalMinutes is strictly below the
previous row's and inherits the previous row's rank otherwise; in the tie
scenario with totals 180, 180, 90 the assigned ranks are 1, 1, 3. -/
theorem C1_ranking :
    (∀ (members : Dict) (s : StatRow),
        (calculate_statistics members)[0]? = some s → s.rank = 1) ∧
    (∀ (members : Dict) (j : Nat) (s t : StatRow),
        (calculate_statistics members)[j]? = some s →
        (calculate_statistics members)[j + 1]? = some t →
        t.rank = if t.totalMinutes < s.totalMinutes then j + 2 else s.rank) ∧
    (calculate_statistics demoC1).map (fun r => (r.totalMinutes, r.rank)) =
      [(180, 1), (180, 1), (90, 3)] := by
  refine ⟨?_, ?_, by decide⟩
  · intro members s hs
    simp only [calculate_statistics] at hs
    exact assignRanks_head_rank _ s hs
  · intro members j s t hs ht
    simp only [calculate_statistics, assignRanks] at hs ht
    have h := assignRanksAux_consec _ 0 none 1 j s t hs ht
    simpa using h

/-- Witness for C1: the general clauses applied to the tie scenario. -/
theorem C1_ranking_witness :
    demoRow0.rank = 1 ∧
    demoRow1.rank = (if demoRow1.totalMinutes < demoRow0.totalMinutes then 0 + 2 else demoRow0.rank) :=
  ⟨C1_ranking.1 demoC1 demoRow0 (by rfl),
   C1_ranking.2.1 demoC1 0 demoRow0 demoRow1 (by rfl) (by rfl)⟩

/-- C2: a roster member with empty status is reported non-compliant exactly
when its total minutes are below 120 and its record count is below 2; on the
boundary roster (119 min over 2 records, 120 min over 1 record, 100 min over
1 record) only the third member is non-compliant. -/
theorem C2_noncompliance :
    (∀ (members : Dict), (dictKeys members).Nodup →
      ∀ (mid : Int) (m : Member), (mid, m) ∈ members → m.status = "" →
        (mid ∈ find_non_compliant_members members ↔
          (sumMinutes m.practice_records < 120 ∧ m.practice_records.length < 2))) ∧
    find_non_compliant_members demoC2 = [3] := by
  refine ⟨?_, by decide⟩
  intro members hnd mid m hm hstatus
  constructor
  · intro hmem
    simp only [find_non_compliant_members, List.mem_map] at hmem
    obtain ⟨p, hp, hfst⟩ := hmem
    rw [List.mem_filter] at hp
    obtain ⟨hpd, hq⟩ := hp
    simp only [Bool.and_eq_true, beq_iff_eq, decide_eq_true_eq] at hq
    have hpair : (mid, p.2) ∈ members := by
      have : p = (mid, p.2) := by
        cases p with
        | mk a b => simp only at hfst; rw [hfst]
      rw [← this]; exact hpd
    have : p.2 = m := nodupKeys_val_eq members hnd mid p.2 m hpair hm
    rw [this] at hq
    exact ⟨hq.1.2, hq.2⟩
  · intro hcond
    simp only [find_non_compliant_members, List.mem_map]
    refine ⟨(mid, m), ?_, rfl⟩
    rw [List.mem_filter]
    refine ⟨hm, ?_⟩
    simp only [Bool.and_eq_true, beq_iff_eq, decide_eq_true_eq]
    exact ⟨⟨hstatus, hcond.1⟩, hcond.2⟩

/-- Witness for C2: the general clause applied to the member with
100 minutes over 1 record. -/
theorem C2_noncompliance_witness :
    (3 : Int) ∈ find_non_compliant_members demoC2 ↔
      (sumMinutes demoM3.practice_records < 120 ∧ demoM3.practice_records.length < 2) :=
  C2_noncompliance.1 demoC2 (by decide) 3 demoM3 (by decide) rfl

/-- C3: with startDate 2025-03-17 the window stays in month 3 and ends on
day 23; the record labelled 3月20日 lands at grid offset 3 while 3月25日 is
out of the window and excluded from the grid; both records still count in
the member's totalMinutes (30 + 40 = 70) and dayCount (2), since the totals
are computed over the full record sequence independently of the grid. -/
theorem C3_window :
    computeEndDate 3 17 = (3, 23) ∧
    gridPlacement 3 17 3 ("3月20日") = some 3 ∧
    gridPlacement 3 17 3 ("3月25日") = none ∧
    (calculate_statistics demoC3).map (fun r => (r.totalMinutes, r.days)) = [(70, 2)] :=
  ⟨by decide, by decide, by decide, by decide⟩

/-- C7: the reporting window's end date is start_day + 6 under the fixed
31-day month-length approximation: when the numeric end day exceeds 31 the
month advances by one and the day wraps by 31, otherwise month and day are
kept. -/
theorem C7_end_date :
    (∀ (sm sd : Nat),
        computeEndDate sm sd =
          if sd + 6 > 31 then (sm + 1, sd + 6 - 31) else (sm, sd + 6)) ∧
    computeEndDate 3 17 = (3, 23) ∧
    computeEndDate 3 27 = (4, 2) := by
  refine ⟨?_, by decide, by decide⟩
  intro sm sd
  rfl

/-! Helper lemmas about the scanner step. -/

/-- An empty line never matches the record grammar. -/
lemma matchRecord_nil : matchRecord [] = none := rfl

/-- An empty line never matches the date-header pattern. -/
lemma matchDateHeader_nil : matchDateHeader [] = none := rfl

/-- Appending a practice record never changes the key sequence. -/
lemma appendRecord_keys (d : Dict) (k : Int) (r : PracticeRecord) :
    dictKeys (appendRecord d k r) = dictKeys d := by
  simp only [appendRecord, dictKeys, List.map_map]
  apply List.map_congr_left
  intro p _
  by_cases hpk : (p.1 == k) = true
  · simp [Function.comp, hpk]
  · simp [Function.comp, hpk]

/-- A scan step never changes the key sequence of the mapping: no member is
ever created or deleted by the log scan. -/
lemma scanStep_keys (s : ScanState) (line : List Char) :
    dictKeys (scanStep s line).members = dictKeys s.members := by
  simp only [scanStep]
  repeat' split
  all_goals simp [appendRecord_keys]

/-- Key preservation extended over a whole scan. -/
lemma foldl_scanStep_keys : ∀ (lines : List (List Char)) (s : ScanState),
    dictKeys ((lines.foldl scanStep s).members) = dictKeys s.members
  | [], _ => rfl
  | l :: ls, s => (foldl_scanStep_keys ls (scanStep s l)).trans (scanStep_keys s l)

/-! Helper lemmas about `dictInsert` lookups and keys. -/

/-- In-place key update: when the key is present, the replacement map keeps
every key unchanged. -/
lemma dictKeys_map_update (d : Dict) (k : Int) (v : Member) :
    dictKeys (d.map (fun p => if p.1 == k then (k, v) else p)) = dictKeys d := by
  simp only [dictKeys, List.map_map]
  apply List.map_congr_left
  intro p _
  by_cases hpk : (p.1 == k) = true
  · simp only [Function.comp_apply, if_pos hpk]
    exact (beq_iff_eq.mp hpk).symm
  · simp [Function.comp, hpk]

/-- The key sequence of an appended fresh entry. -/
lemma dictKeys_append (d : Dict) (k : Int) (v : Member) :
    dictKeys (d ++ [(k, v)]) = dictKeys d ++ [k] := by
  simp [dictKeys]

/-- Inserting preserves the no-duplicate-keys invariant. -/
lemma dictKeys_dictInsert_nodup (d : Dict) (k : Int) (v : Member)
    (h : (dictKeys d).Nodup) : (dictKeys (dictInsert d k v)).Nodup := by
  unfold dictInsert
  split
  · rw [dictKeys_map_update]; exact h
  · rename_i hc
    have hk : k ∉ dictKeys d := fun hmem => hc ((dictContains_iff d k).mpr hmem)
    rw [dictKeys_append, List.nodup_append]
    exact ⟨h, List.nodup_singleton k, by rw [List.disjoint_singleton]; exact hk⟩

/-- Finding the updated key in the in-place replacement map. -/
lemma find?_update_self : ∀ (d : Dict) (k : Int) (v : Member), dictContains d k = true →
    (d.map (fun p => if p.1 == k then (k, v) else p)).find? (fun p => p.1 == k) = some (k, v)
  | [], k, _, h => by simp [dictContains] at h
  | p :: rest, k, v, h => by
    by_cases hpk : (p.1 == k) = true
    · rw [List.map_cons, if_pos hpk, List.find?_cons_of_pos _ (by simp)]
    · rw [List.map_cons, if_neg hpk, List.find?_cons_of_neg _ (by simp [hpk])]
      apply find?_update_self rest k v
      simp only [dictContains, List.any_cons, Bool.or_eq_true] at h
      rcases h with h1 | h2
      · exact absurd h1 hpk
      · exact h2

/-- Finding the appended key when it was absent. -/
lemma find?_append_self : ∀ (d : Dict) (k : Int) (v : Member), dictContains d k = false →
    (d ++ [(k, v)]).find? (fun p => p.1 == k) = some (k, v)
  | [], k, v, _ => by
    rw [List.nil_append, List.find?_cons_of_pos _ (by simp)]
  | p :: rest, k, v, h => by
    simp only [dictContains, List.any_cons, Bool.or_eq_false_iff] at h
    rw [List.cons_append, List.find?_cons_of_neg _ (by simp [h.1])]
    exact find?_append_self rest k v h.2

/-- A key different from the updated one finds the same entry as before. -/
lemma find?_update_ne : ∀ (d : Dict) (k j : Int) (v : Member), j ≠ k →
    ((d.map (fun p => if p.1 == k then (k, v) else p)).find? (fun p => p.1 == j)).map (·.2) =
      (d.find? (fun p => p.1 == j)).map (·.2)
  | [], _, _, _, _ => rfl
  | p :: rest, k, j, v, hjk => by
    have hkj : ((k : Int) == j) = false := beq_eq_false_iff_ne.mpr (Ne.symm hjk)
    by_cases hpk : (p.1 == k) = true
    · have hpj : (p.1 == j) = false := by
        rw [beq_iff_eq] at hpk
        rw [hpk]
        exact hkj
      rw [List.map_cons, if_pos hpk]
      simp only [List.find?_cons, hkj, hpj]
      exact find?_update_ne rest k j v hjk
    · rw [List.map_cons, if_neg hpk]
      by_cases hpj : (p.1 == j) = true
      · simp only [List.find?_cons, hpj]
      · have hpj2 : (p.1 == j) = false := by simpa using hpj
        simp only [List.find?_cons, hpj2]
        exact find?_update_ne rest k j v hjk

/-- A key different from the appended one finds the same entry as before. -/
lemma find?_append_ne : ∀ (d : Dict) (k j : Int) (v : Member), j ≠ k →
    (d ++ [(k, v)]).find? (fun p => p.1 == j) = d.find? (fun p => p.1 == j)
  | [], k, j, v, hjk => by
    have hkj : ((k : Int) == j) = false := beq_eq_false_iff_ne.mpr (Ne.symm hjk)
    rw [List.nil_append]
    simp only [List.find?_cons, hkj]
  | p :: rest, k, j, v, hjk => by
    rw [List.cons_append]
    by_cases hpj : (p.1 == j) = true
    · simp only [List.find?_cons, hpj]
    · have hpj2 : (p.1 == j) = false := by simpa using hpj
      simp only [List.find?_cons, hpj2]
      exact find?_append_ne rest k j v hjk

/-- Looking up the inserted key finds the inserted member. -/
lemma dictLookup_dictInsert_self (d : Dict) (k : Int) (v : Member) :
    dictLookup (dictInsert d k v) k = some v := by
  unfold dictInsert
  split
  · rename_i hc
    unfold dictLookup
    rw [find?_update_self d k v hc]
    rfl
  · rename_i hc
    unfold dictLookup
    rw [find?_append_self d k v (Bool.not_eq_true _ ▸ hc)]
    rfl

/-- Looking up any other key is unaffected by an insertion. -/
lemma dictLookup_dictInsert_ne (d : Dict) (k j : Int) (v : Member) (hjk : j ≠ k) :
    dictLookup (dictInsert d k v) j = dictLookup d j := by
  unfold dictInsert
  split
  · exact find?_update_ne d k j v hjk
  · unfold dictLookup
    rw [find?_append_ne d k j v hjk]

/-! Helper lemmas for the roster fold and the non-compliance list. -/

/-- A roster step preserves the no-duplicate-keys invariant. -/
lemma rosterStep_keys_nodup (st : Dict × List Diag) (line : List Char)
    (h : (dictKeys st.1).Nodup) : (dictKeys (rosterStep st line).1).Nodup := by
  simp only [rosterStep]
  repeat' split
  all_goals first
    | exact dictKeys_dictInsert_nodup _ _ _ h
    | exact h

/-- Key-nodup invariant over the whole roster fold. -/
lemma foldl_rosterStep_keys_nodup : ∀ (lines : List (List Char)) (st : Dict × List Diag),
    (dictKeys st.1).Nodup → (dictKeys ((lines.foldl rosterStep st).1)).Nodup
  | [], _, h => h
  | l :: ls, st, h =>
    foldl_rosterStep_keys_nodup ls (rosterStep st l) (rosterStep_keys_nodup st l h)

/-- The roster mapping never has duplicate keys. -/
lemma parse_member_list_keys_nodup (content : String) :
    (dictKeys (parse_member_list content).1).Nodup :=
  foldl_rosterStep_keys_nodup _ ([], []) List.nodup_nil

/-- The non-compliant id list is a sublist of the key sequence. -/
lemma find_non_compliant_sublist (d : Dict) :
    List.Sublist (find_non_compliant_members d) (dictKeys d) :=
  (List.filter_sublist d).map Prod.fst

/-- Without duplicate keys, the non-compliant id list has no duplicates. -/
lemma find_non_compliant_nodup {d : Dict} (h : (dictKeys d).Nodup) :
    (find_non_compliant_members d).Nodup :=
  h.sublist (find_non_compliant_sublist d)

/-- `pySorted` output is sorted ascending. -/
lemma pySorted_sorted (l : List Int) : (pySorted l).Sorted (· ≤ ·) :=
  List.sorted_insertionSort _ l

/-- `pySorted` is a permutation of its input. -/
lemma pySorted_perm (l : List Int) : List.Perm (pySorted l) l :=
  List.perm_insertionSort _ l

/-- `pySorted` preserves the no-duplicates property. -/
lemma pySorted_nodup {l : List Int} (h : l.Nodup) : (pySorted l).Nodup :=
  (pySorted_perm l).nodup_iff.mpr h

/-! Scenario inputs for the scanner claims. -/

/-- A scan state whose roster knows only member 140. -/
def demoScanState : ScanState :=
  { currentDate := "3月18日",
    members := [(140, { id := 140, name := "VV", city := "四川成都", status := "",
                        practice_records := [] })],
    diags := [] }

/-- A valid record line referencing the unknown member id 9999. -/
def demoUnknownLine : List Char := ("1. 。9999。小明（北京）。70。加油").data

/-- A line that matches the record grammar but contains 例 in its content. -/
def demoExampleLine : List Char := ("1. 。140。VV（四川成都）。70。拜厄89 例子").data

/-! Theorems for the scanner claims. -/

/-- C5: a log line matching the record grammar whose member id is absent
from the roster is discarded with exactly one diagnostic: the mapping (and
with it every member's record list) is untouched, the date label is
untouched, and the fold structure continues with the remaining lines. -/
theorem C5_unknown_id :
    (∀ (s : ScanState) (rawLine : List Char) (mid mins : Nat) (content : List Char),
        matchDateHeader (pyStripL rawLine) = none →
        (pyStripL rawLine).head? ≠ some '#' →
        (pyStripL rawLine).contains '例' = false →
        matchRecord (pyStripL rawLine) = some (mid, mins, content) →
        dictContains s.members (mid : Int) = false →
        scanStep s rawLine = { s with diags := s.diags ++ [Diag.memberNotFound mid] }) ∧
    (∀ (s : ScanState) (line : List Char) (rest : List (List Char)),
        (line :: rest).foldl scanStep s = rest.foldl scanStep (scanStep s line)) := by
  constructor
  · intro s rawLine mid mins content hHdr hHash hEx hRec hNotIn
    have hne : (pyStripL rawLine).isEmpty = false := by
      cases hpl : pyStripL rawLine with
      | nil => rw [hpl, matchRecord_nil] at hRec; exact Option.noConfusion hRec
      | cons a l => rfl
    have hEx2 : '例' ∉ pyStripL rawLine := by
      intro hmem
      have hct : (pyStripL rawLine).contains '例' = true := by simpa using hmem
      rw [hct] at hEx
      exact Bool.noConfusion hEx
    simp [scanStep, hne, hHdr, hHash, hEx2, hRec, hNotIn]
  · intro s line rest
    rfl

/-- Witness for C5: the unknown-id line 9999 against the roster knowing
only member 140. -/
theorem C5_unknown_id_witness :
    scanStep demoScanState demoUnknownLine =
      { demoScanState with diags := demoScanState.diags ++ [Diag.memberNotFound 9999] } :=
  C5_unknown_id.1 demoScanState demoUnknownLine 9999 70 (("加油").data)
    (by decide) (by decide) (by decide) (by decide) (by decide)

/-- C6: a date-header line sets the current date label to the year-dropped
`M月D日` form and contributes no record and no diagnostic; every other line
leaves the label unchanged; any record appended by a scan step carries the
label in force when the line was scanned; and the scan starts from the
empty-string sentinel label. -/
theorem C6_date_state :
    (∀ (s : ScanState) (rawLine : List Char) (m d : List Char),
        matchDateHeader (pyStripL rawLine) = some (m, d) →
        scanStep s rawLine =
          { s with currentDate := String.mk m ++ "月" ++ String.mk d ++ "日" }) ∧
    (∀ (s : ScanState) (rawLine : List Char),
        matchDateHeader (pyStripL rawLine) = none →
        (scanStep s rawLine).currentDate = s.currentDate) ∧
    (∀ (s : ScanState) (rawLine : List Char),
        (scanStep s rawLine).members = s.members ∨
        ∃ (mid mins : Nat) (contentChars : List Char),
          matchRecord (pyStripL rawLine) = some (mid, mins, contentChars) ∧
          (scanStep s rawLine).members =
            appendRecord s.members (mid : Int)
              (mins, String.mk (pyStripL contentChars), s.currentDate)) ∧
    (∀ (content : String) (members : Dict),
        parse_practice_records content members =
          (splitOnChar '\n' (pyStripL content.data)).foldl scanStep
            { currentDate := "", members := members, diags := [] }) := by
  refine ⟨?_, ?_, ?_, fun _ _ => rfl⟩
  · intro s rawLine m d hHdr
    have hne : (pyStripL rawLine).isEmpty = false := by
      cases hpl : pyStripL rawLine with
      | nil => rw [hpl, matchDateHeader_nil] at hHdr; exact Option.noConfusion hHdr
      | cons a l => rfl
    simp [scanStep, hne, hHdr]
  · intro s rawLine hHdr
    simp only [scanStep]
    repeat' split
    all_goals simp_all
  · intro s rawLine
    simp only [scanStep]
    split
    · left; rfl
    · split
      · left; rfl
      · split
        · left; rfl
        · split
          · left; rfl
          · split
            · rename_i mid mins contentChars heq
              split
              · right; exact ⟨mid, mins, contentChars, heq, rfl⟩
              · left; rfl
            · left; rfl

/-- Witness for C6: the header line 2025年3月18日 星期二 sets the label
3月18日 (年 dropped) and touches nothing else. -/
theorem C6_date_state_witness :
    scanStep { currentDate := "", members := [], diags := [] }
        (("2025年3月18日 星期二").data) =
      { currentDate := "3月18日", members := [], diags := [] } :=
  (C6_date_state.1 { currentDate := "", members := [], diags := [] }
    (("2025年3月18日 星期二").data) (("3").data) (("18").data) (by decide)).trans (by decide)

/-- C10: the example-line check precedes the record-grammar match, so every
line containing 例 — in particular one that would otherwise parse as a
valid record — contributes no practice record and no diagnostic. -/
theorem C10_example_precedence :
    ∀ (s : ScanState) (rawLine : List Char), '例' ∈ pyStripL rawLine →
      (scanStep s rawLine).members = s.members ∧ (scanStep s rawLine).diags = s.diags := by
  intro s rawLine hmem
  have hc : (pyStripL rawLine).contains '例' = true := by
    simpa using hmem
  simp only [scanStep]
  repeat' split
  all_goals simp_all

/-- Witness for C10: a line that matches the record grammar for member 140
yet contains 例, scanned against a state that knows member 140: it is
skipped with no record and no diagnostic. -/
theorem C10_example_precedence_witness :
    (matchRecord (pyStripL demoExampleLine)).isSome = true ∧
    (scanStep demoScanState demoExampleLine).members = demoScanState.members ∧
    (scanStep demoScanState demoExampleLine).diags = demoScanState.diags :=
  ⟨by decide,
   (C10_example_precedence demoScanState demoExampleLine (by decide)).1,
   (C10_example_precedence demoScanState demoExampleLine (by decide)).2⟩

/-! Theorems for the roster claims. -/

/-- C4 counterexample: a roster document whose third line is non-blank but
splits into fewer than 3 tab-delimited fields.  The line is excluded from
the roster, yet the diagnostic list stays empty — the claim that such a line
causes one diagnostic is false on the code (the source only prints a warning
on the integer-parse failure path, src/beta.py lines 25–37). -/
theorem C4_counterexample :
    (parse_member_list ("Title\nHeader\n5\tAlice")).1 = [] ∧
    (parse_member_list ("Title\nHeader\n5\tAlice")).2 = [] :=
  ⟨by decide, by decide⟩

/-- C4 (amended): a non-blank roster line with fewer than 3 tab-delimited
fields is excluded from the roster silently, with no diagnostic; a line with
at least 3 fields whose first field does not parse as an integer is excluded
with exactly one diagnostic; in both cases the fold continues with the
remaining lines. -/
theorem C4_malformed_roster_line :
    (∀ (st : Dict × List Diag) (line : List Char), pyStripL line ≠ [] →
        ((splitOnChar '\t' line).map pyStripL).length < 3 → rosterStep st line = st) ∧
    (∀ (st : Dict × List Diag) (line : List Char) (p0 p1 p2 : List Char)
        (rest : List (List Char)), pyStripL line ≠ [] →
        (splitOnChar '\t' line).map pyStripL = p0 :: p1 :: p2 :: rest →
        pyParseIntL p0 = none →
        rosterStep st line = (st.1, st.2 ++ [Diag.rosterParseFailed (String.mk line)])) ∧
    (∀ (st : Dict × List Diag) (line : List Char) (rest : List (List Char)),
        (line :: rest).foldl rosterStep st = rest.foldl rosterStep (rosterStep st line)) := by
  refine ⟨?_, ?_, fun _ _ _ => rfl⟩
  · intro st line hne hlen
    simp only [rosterStep, if_neg hne]
    rcases hp : (splitOnChar '\t' line).map pyStripL with _ | ⟨a, _ | ⟨b, _ | ⟨c, r⟩⟩⟩
    · rfl
    · rfl
    · rfl
    · rw [hp] at hlen; simp at hlen; omega
  · intro st line p0 p1 p2 rest hne hsplit hparse
    simp only [rosterStep, if_neg hne, hsplit, hparse]

/-- Witness for C4 (amended): a 2-field line is dropped silently and a
3-field line with non-integer id yields one diagnostic. -/
theorem C4_malformed_roster_line_witness :
    rosterStep ([], []) (("5\tAlice").data) = ([], []) ∧
    rosterStep ([], []) (("x\tY\tZ").data) =
      ([], [] ++ [Diag.rosterParseFailed (String.mk ("x\tY\tZ").data)]) :=
  ⟨C4_malformed_roster_line.1 ([], []) (("5\tAlice").data) (by decide) (by decide),
   C4_malformed_roster_line.2.1 ([], []) (("x\tY\tZ").data)
     (("x").data) (("Y").data) (("Z").data) [] (by decide) (by decide) (by decide)⟩

/-- The member built by a successfully parsed roster line. -/
def rosterMember (mid : Int) (p1 p2 : List Char) (rest : List (List Char)) : Member :=
  { id := mid, name := String.mk p1, city := String.mk p2,
    status := String.mk (rest.headD []), practice_records := [] }

/-- A roster document with the id 7 on two successfully parsed lines. -/
def demoDupRoster : String :=
  "Roster\nID\tName\tCity\tStatus\n7\tAlice\tParis\tleave\n7\tBob\tLyon"

/-- C8: every successfully parsed roster line stores exactly one Member
under its parsed integer id; inserting under an existing key replaces the
stored member while leaving every other key's entry unchanged, so of two
lines carrying the same id the later one wins — as on the duplicate-id
roster, where id 7 ends up mapped to the second line's member. -/
theorem C8_last_line_wins :
    (∀ (st : Dict × List Diag) (line : List Char) (p0 p1 p2 : List Char)
        (rest : List (List Char)) (mid : Int), pyStripL line ≠ [] →
        (splitOnChar '\t' line).map pyStripL = p0 :: p1 :: p2 :: rest →
        pyParseIntL p0 = some mid →
        rosterStep st line = (dictInsert st.1 mid (rosterMember mid p1 p2 rest), st.2)) ∧
    (∀ (d : Dict) (k : Int) (v : Member), dictLookup (dictInsert d k v) k = some v) ∧
    (∀ (d : Dict) (k j : Int) (v : Member), j ≠ k →
        dictLookup (dictInsert d k v) j = dictLookup d j) ∧
    dictLookup (parse_member_list demoDupRoster).1 7 =
      some { id := 7, name := "Bob", city := "Lyon", status := "", practice_records := [] } := by
  refine ⟨?_, dictLookup_dictInsert_self, fun d k j v h => dictLookup_dictInsert_ne d k j v h,
    by decide⟩
  intro st line p0 p1 p2 rest mid hne hsplit hparse
  simp only [rosterStep, if_neg hne, hsplit, hparse, rosterMember]

/-- Witness for C8: the second duplicate-id line stores Bob under key 7,
overwriting Alice there and leaving key 9 alone. -/
theorem C8_last_line_wins_witness :
    rosterStep ([(7, rosterMember 7 (("Alice").data) (("Paris").data) [("leave").data])], [])
        (("7\tBob\tLyon").data) =
      (dictInsert [(7, rosterMember 7 (("Alice").data) (("Paris").data) [("leave").data])] 7
        (rosterMember 7 (("Bob").data) (("Lyon").data) []), []) ∧
    dictLookup (dictInsert [] 7 demoM3) 7 = some demoM3 ∧
    dictLookup (dictInsert [] 7 demoM3) 9 = dictLookup [] 9 :=
  ⟨C8_last_line_wins.1 ([(7, rosterMember 7 (("Alice").data) (("Paris").data) [("leave").data])], [])
      (("7\tBob\tLyon").data) (("7").data) (("Bob").data) (("Lyon").data) [] 7
      (by decide) (by decide) (by decide),
   C8_last_line_wins.2.1 [] 7 demoM3,
   C8_last_line_wins.2.2.1 [] 7 9 demoM3 (by decide)⟩

/-- The no-duplicate-keys invariant carried through both parses to the
mapping that feeds `find_non_compliant_members` in `process_data`. -/
lemma pipeline_keys_nodup (rosterContent logContent : String) :
    (dictKeys (parse_practice_records logContent
      (parse_member_list rosterContent).1).members).Nodup := by
  have hkeys : dictKeys (parse_practice_records logContent
      (parse_member_list rosterContent).1).members =
      dictKeys (parse_member_list rosterContent).1 := by
    simp only [parse_practice_records]
    exact foldl_scanStep_keys _ _
  rw [hkeys]
  exact parse_member_list_keys_nodup rosterContent

/-- A roster listing id 9 before id 7, both required and with no practice
records (so both non-compliant). -/
def demoUnsortedRoster : String := "Title\nHeader\n9\tAlice\tX\n7\tBob\tY"

/-- C9 counterexample: the id list handed to the Warning Message Composer
is the raw `find_non_compliant_members` output (`process_data` line 359),
which is in roster insertion order — for `demoUnsortedRoster` and an empty
log it is `[9, 7]`, which is not sorted ascending.  The `sorted()` call
only happens inside `generate_warning_message` (line 302), after hand-off,
so the claim that the list is sorted before hand-off is false. -/
theorem C9_counterexample :
    find_non_compliant_members
        (parse_practice_records "" (parse_member_list demoUnsortedRoster).1).members = [9, 7] ∧
    ¬ (find_non_compliant_members
        (parse_practice_records "" (parse_member_list demoUnsortedRoster).1).members).Sorted
      (· ≤ ·) :=
  ⟨by decide, by decide⟩

/-- C9 (amended): the id list handed to the Warning Message Composer
contains each id at most once (its ids come from the roster mapping, whose
keys are unique), but it is handed in roster insertion order, not sorted;
the composer itself sorts it ascending — `sorted(non_compliant)` inside
`generate_warning_message` — so the id sequence embedded in the composed
message is sorted ascending and duplicate-free. -/
theorem C9_sorted_inside_composer :
    ∀ (rosterContent logContent weekday : String),
      (find_non_compliant_members
          (parse_practice_records logContent (parse_member_list rosterContent).1).members).Nodup ∧
      generate_warning_message
          (find_non_compliant_members
            (parse_practice_records logContent (parse_member_list rosterContent).1).members)
          weekday =
        warningHead weekday ++
          joinComma (pySorted (find_non_compliant_members
            (parse_practice_records logContent (parse_member_list rosterContent).1).members)) ++
          warningTail ∧
      (pySorted (find_non_compliant_members
          (parse_practice_records logContent (parse_member_list rosterContent).1).members)).Sorted
        (· ≤ ·) ∧
      (pySorted (find_non_compliant_members
          (parse_practice_records logContent (parse_member_list rosterContent).1).members)).Nodup := by
  intro rosterContent logContent weekday
  have hnd := find_non_compliant_nodup (pipeline_keys_nodup rosterContent logContent)
  exact ⟨hnd, rfl, pySorted_sorted _, pySorted_nodup hnd⟩

end PianoPractice
